import Mathlib

/-!
Shallow embedding of the Google Calendar Event Dashboard API (src/index.js).

Modelling conventions:
* Timestamp strings (ISO datetimes / all-day dates) are modelled by their
  millisecond values as `Int`; `new Date(s₂) - new Date(s₁)` becomes plain
  integer subtraction.  An absent or empty (JS-falsy) time string is `none`.
* JS objects holding optional fields become structures with `Option` fields.
* The JS object `cache` is a function `String → Option CacheEntry`; the lowdb
  `db.data.users` array is a `List UserRec`.
* Handlers are pure functions of the pre-state, the request, the current
  clock (`Date.now()`), and the result the calendar provider would return if
  called; they return the response data, the post-state of the cache, and the
  number of provider calls performed (0 or 1).
-/

/-- JS truthiness of an optional string: `undefined`/absent and the empty
string are falsy, every other string truthy (used for `if (!email)`,
`if (tokens.id_token)`, ...). -/
def truthy : Option String → Bool
  | none => false
  | some s => !(s == "")

/-- JS `Math.round`: round half toward positive infinity. -/
def jsRound (q : ℚ) : Int := ⌊q + 1/2⌋

/-- A raw `start`/`end` object of a Google Calendar event: optional timed
`dateTime` and all-day `date` fields (src/index.js lines 112-115). -/
structure RawTimeField where
  dateTime : Option Int
  date : Option Int
  deriving DecidableEq

/-- A raw attendee object; only its `email` field is used (line 124). -/
structure RawAttendee where
  email : String
  deriving DecidableEq

/-- A raw provider event as consumed by `fetchProcessedEvents`
(src/index.js lines 111-126). -/
structure RawEvent where
  id : String
  status : Option String
  summary : Option String
  start : Option RawTimeField
  end_ : Option RawTimeField
  location : Option String
  attendees : Option (List RawAttendee)
  deriving DecidableEq

/-- `f.dateTime || f.date`: prefer the timed field over the all-day field. -/
def timeVal (f : RawTimeField) : Option Int :=
  match f.dateTime with
  | some v => some v
  | none => f.date

/-- The start timestamp the code would pick:
`e.start && (e.start.dateTime || e.start.date)` (lines 112, 114). -/
def startTime (e : RawEvent) : Option Int :=
  match e.start with
  | some f => timeVal f
  | none => none

/-- The end timestamp the code would pick:
`e.end && (e.end.dateTime || e.end.date)` (lines 112, 115). -/
def endTime (e : RawEvent) : Option Int :=
  match e.end_ with
  | some f => timeVal f
  | none => none

/-- The filter predicate of line 112: drop cancelled events and events with
no usable start or end timestamp. -/
def keepEvent (e : RawEvent) : Bool :=
  !(e.status == some "cancelled") && (startTime e).isSome && (endTime e).isSome

/-- The normalized event shape returned by the API (lines 117-125);
the JSON field `end` is called `end_` here. -/
structure NormalizedEvent where
  id : String
  title : String
  start : Int
  end_ : Int
  durationMinutes : Int
  location : String
  attendees : List String
  deriving DecidableEq

/-- The map step of lines 113-126.  It is only applied to events passing
`keepEvent`, where `startTime`/`endTime` are `some`; `getD 0` is the
(unreachable) default. -/
def normalizeEvent (e : RawEvent) : NormalizedEvent :=
  let s := (startTime e).getD 0
  let t := (endTime e).getD 0
  { id := e.id
    title := e.summary.getD "No Title"
    start := s
    end_ := t
    durationMinutes := jsRound (((t - s : Int) : ℚ) / (1000 * 60))
    location := e.location.getD ""
    attendees := (e.attendees.getD []).map (fun a => a.email) }

/-- The pure normalization pipeline of `fetchProcessedEvents`
(lines 111-126): filter then map over the provider's item list. -/
def processEvents (events : List RawEvent) : List NormalizedEvent :=
  (events.filter keepEvent).map normalizeEvent

/-- The summary object of `GET /events/summary` (lines 258-267).
`totalHours` is a JS float; modelled as `ℚ`. -/
structure Summary where
  totalEvents : Nat
  totalHours : ℚ
  firstEventStart : Option Int
  lastEventEnd : Option Int
  deriving DecidableEq

/-- Summary computation of lines 259-267: empty list yields the zero
summary; otherwise length, reduce-sum of durations divided by 60, and the
first element's start / last element's end in list order. -/
def computeSummary (events : List NormalizedEvent) : Summary :=
  match events with
  | [] => { totalEvents := 0, totalHours := 0, firstEventStart := none, lastEventEnd := none }
  | e :: rest =>
    { totalEvents := (e :: rest).length
      totalHours := (((e :: rest).foldl (fun sum x => sum + x.durationMinutes) 0 : Int) : ℚ) / 60
      firstEventStart := some e.start
      lastEventEnd := some ((rest.getLast? |>.getD e).end_) }

/-- An OAuth2 token bundle as used by the callback; only the fields tested by
the code are modelled (lines 165, 181, 194). -/
structure Tokens where
  id_token : Option String
  access_token : Option String
  deriving DecidableEq

/-- A record of the lowdb `users` array: `{ email, tokens }` (line 69).
`tokens` is optional because `ensureAuthenticated` guards `!user.tokens`. -/
structure UserRec where
  email : String
  tokens : Option Tokens
  deriving DecidableEq

/-- `db.data.users.find(u => u.email === email)` (lines 58-61). -/
def getUser (users : List UserRec) (email : String) : Option UserRec :=
  users.find? (fun u => u.email == email)

/-- `saveUser` (lines 63-72): update the first record with this email in
place, else push a new record at the end. -/
def saveUser (users : List UserRec) (email : String) (tokens : Tokens) : List UserRec :=
  match users with
  | [] => [{ email := email, tokens := some tokens }]
  | u :: rest =>
    if u.email == email then { u with tokens := some tokens } :: rest
    else u :: saveUser rest email tokens

/-- A per-user cache entry: `{ events, summary, expiry }` (lines 78-79,
234-236, 268-270). -/
structure CacheEntry where
  events : Option (List NormalizedEvent)
  summary : Option Summary
  expiry : Int
  deriving DecidableEq

/-- The in-memory `cache` object, keyed by user email (line 75). -/
def CacheMap : Type := String → Option CacheEntry

/-- `cache[email] = v`. -/
def updateCache (cache : CacheMap) (email : String) (entry : CacheEntry) : CacheMap :=
  fun e => if e = email then some entry else cache e

/-- `CACHE_TTL_MS = 60 * 1000` (line 76). -/
def CACHE_TTL_MS : Int := 60 * 1000

/-- `invalidateCache` (lines 78-80):
`cache[email] = { events: null, summary: null, expiry: 0 }`. -/
def invalidateCache (cache : CacheMap) (email : String) : CacheMap :=
  updateCache cache email { events := none, summary := none, expiry := 0 }

/-- `cache[email] = cache[email] || {}` (lines 234, 268): reuse the existing
entry, else a fresh empty object (absent fields are `none`; `expiry` is
always assigned right after, its default is irrelevant). -/
def baseEntry (c : Option CacheEntry) : CacheEntry :=
  match c with
  | some entry => entry
  | none => { events := none, summary := none, expiry := 0 }

/-- The events-cache hit test of line 228:
`cache[email] && cache[email].events && cache[email].expiry > now`. -/
def cacheHitEvents (c : Option CacheEntry) (now : Int) : Option (List NormalizedEvent) :=
  match c with
  | some entry =>
    match entry.events with
    | some evs => if entry.expiry > now then some evs else none
    | none => none
  | none => none

/-- The summary-cache hit test of line 252:
`cache[email] && cache[email].summary && cache[email].expiry > now`. -/
def cacheHitSummary (c : Option CacheEntry) (now : Int) : Option Summary :=
  match c with
  | some entry =>
    match entry.summary with
    | some s => if entry.expiry > now then some s else none
    | none => none
  | none => none

/-- `ensureAuthenticated` (lines 83-93): 400 when the `X-User-Email` header
is missing (or JS-falsy), 401 when the user is unknown or has no tokens;
otherwise passes the email on. -/
def ensureAuthenticated (users : List UserRec) (header : Option String) : Except Nat String :=
  if truthy header = false then Except.error 400
  else
    let email := header.getD ""
    match getUser users email with
    | none => Except.error 401
    | some u =>
      match u.tokens with
      | none => Except.error 401
      | some _ => Except.ok email

/-- Lines 234-236: `cache[email] = cache[email] || {}`, then assign
`cache[email].events` and `cache[email].expiry`; the `summary` sub-field of
an existing entry is untouched. -/
def storeEvents (cache : CacheMap) (email : String) (now : Int)
    (events : List NormalizedEvent) : CacheMap :=
  updateCache cache email
    { baseEntry (cache email) with events := some events, expiry := now + CACHE_TTL_MS }

/-- Lines 268-270: the summary analogue; the `events` sub-field of an
existing entry is untouched. -/
def storeSummary (cache : CacheMap) (email : String) (now : Int) (s : Summary) : CacheMap :=
  updateCache cache email
    { baseEntry (cache email) with summary := some s, expiry := now + CACHE_TTL_MS }

/-- Outcome of a `GET /events` request: HTTP status, JSON body when the
status is 200, the cache post-state, and how many provider calls ran. -/
structure EventsOut where
  status : Nat
  body : Option (List NormalizedEvent)
  cache' : CacheMap
  providerCalls : Nat

/-- Outcome of a `GET /events/summary` request. -/
structure SummaryOut where
  status : Nat
  body : Option Summary
  cache' : CacheMap
  providerCalls : Nat

/-- Outcome of a `GET /events/:id` request. -/
structure EventOut where
  status : Nat
  body : Option NormalizedEvent
  cache' : CacheMap
  providerCalls : Nat

/-- `GET /events` (lines 223-244).  `provider` is what
`fetchProcessedEvents`'s provider call would yield: raw items on success,
an error message when the fetch throws (mapped to HTTP 500, line 242). -/
def getEvents (users : List UserRec) (cache : CacheMap) (header : Option String)
    (now : Int) (provider : Except String (List RawEvent)) : EventsOut :=
  match ensureAuthenticated users header with
  | Except.error code => { status := code, body := none, cache' := cache, providerCalls := 0 }
  | Except.ok email =>
    match cacheHitEvents (cache email) now with
    | some evs => { status := 200, body := some evs, cache' := cache, providerCalls := 0 }
    | none =>
      match provider with
      | Except.error _ => { status := 500, body := none, cache' := cache, providerCalls := 1 }
      | Except.ok raws =>
        let events := processEvents raws
        { status := 200
          body := some events
          cache' := storeEvents cache email now events
          providerCalls := 1 }

/-- `GET /events/summary` (lines 247-278): on a miss, fetch, compute the
summary, store it (and the new expiry) in the user's entry. -/
def getSummary (users : List UserRec) (cache : CacheMap) (header : Option String)
    (now : Int) (provider : Except String (List RawEvent)) : SummaryOut :=
  match ensureAuthenticated users header with
  | Except.error code => { status := code, body := none, cache' := cache, providerCalls := 0 }
  | Except.ok email =>
    match cacheHitSummary (cache email) now with
    | some s => { status := 200, body := some s, cache' := cache, providerCalls := 0 }
    | none =>
      match provider with
      | Except.error _ => { status := 500, body := none, cache' := cache, providerCalls := 1 }
      | Except.ok raws =>
        let summary := computeSummary (processEvents raws)
        { status := 200
          body := some summary
          cache' := storeSummary cache email now summary
          providerCalls := 1 }

/-- `GET /events/:id` (lines 281-294): always fetch the full list, linearly
scan for the id, 404 when absent.  The cache is neither read nor written. -/
def getEventById (users : List UserRec) (cache : CacheMap) (header : Option String)
    (eid : String) (provider : Except String (List RawEvent)) : EventOut :=
  match ensureAuthenticated users header with
  | Except.error code => { status := code, body := none, cache' := cache, providerCalls := 0 }
  | Except.ok _ =>
    match provider with
    | Except.error _ => { status := 500, body := none, cache' := cache, providerCalls := 1 }
    | Except.ok raws =>
      let events := processEvents raws
      match events.find? (fun e => e.id == eid) with
      | none => { status := 404, body := none, cache' := cache, providerCalls := 1 }
      | some ev => { status := 200, body := some ev, cache' := cache, providerCalls := 1 }

/-- The three identity-resolution methods of the OAuth callback
(lines 164-203). -/
inductive ResolveMethod where
  | idToken
  | userinfo
  | tokenInfo
  deriving DecidableEq

/-- Results the three resolution methods would yield if attempted: the email
each method produces, `none` when the method throws or its response carries
no email. -/
structure ResolveOracle where
  verifyIdToken : Option String
  userinfo : Option String
  tokenInfo : Option String

/-- The fallback chain of lines 161-203: method 1 runs iff `tokens.id_token`
is truthy; methods 2 and 3 each run iff no truthy email was found yet and
`tokens.access_token` is truthy.  Returns the final email value and the list
of attempted methods in order. -/
def resolveEmail (tokens : Tokens) (o : ResolveOracle) : Option String × List ResolveMethod :=
  let s1 : Option String × List ResolveMethod :=
    if truthy tokens.id_token then (o.verifyIdToken, [ResolveMethod.idToken])
    else (none, [])
  let s2 : Option String × List ResolveMethod :=
    if !truthy s1.1 && truthy tokens.access_token then (o.userinfo, s1.2 ++ [ResolveMethod.userinfo])
    else s1
  if !truthy s2.1 && truthy tokens.access_token then (o.tokenInfo, s2.2 ++ [ResolveMethod.tokenInfo])
  else s2

/-- Outcome of the `GET /oauth2callback` request. -/
structure CallbackOut where
  status : Nat
  users' : List UserRec
  cache' : CacheMap
  attempted : List ResolveMethod

/-- `GET /oauth2callback` (lines 151-220).  `code` is the query parameter,
`exchange` the result `oAuth2Client.getToken(code)` would produce.  On a
resolved email: save the tokens, invalidate the user's cache, respond 200;
when no method yields a (truthy) email: respond 400 and persist nothing. -/
def oauth2callback (users : List UserRec) (cache : CacheMap) (code : Option String)
    (exchange : Except String Tokens) (o : ResolveOracle) : CallbackOut :=
  if truthy code = false then
    { status := 400, users' := users, cache' := cache, attempted := [] }
  else
    match exchange with
    | Except.error _ => { status := 500, users' := users, cache' := cache, attempted := [] }
    | Except.ok tokens =>
      let r := resolveEmail tokens o
      if truthy r.1 then
        let email := r.1.getD ""
        { status := 200
          users' := saveUser users email tokens
          cache' := invalidateCache cache email
          attempted := r.2 }
      else
        { status := 400, users' := users, cache' := cache, attempted := r.2 }

/-- The authentication precondition under which `ensureAuthenticated`
passes: a truthy email whose stored user record has tokens. -/
def credentialed (users : List UserRec) (email : String) : Bool :=
  !(email == "") &&
    match getUser users email with
    | some u => u.tokens.isSome
    | none => false

/-- The authentication precondition of a caller with no stored credentials:
the user record is absent, or present without tokens. -/
def uncredentialed (users : List UserRec) (email : String) : Bool :=
  match getUser users email with
  | none => true
  | some u => u.tokens.isNone

/-- Concrete token bundle used to evaluate theorems on closed inputs. -/
def wTokens : Tokens := { id_token := some "idtok", access_token := some "acctok" }

/-- Concrete user store with one credentialed user. -/
def wUsers : List UserRec := [{ email := "u@example.com", tokens := some wTokens }]

/-- Concrete user store with one token-less user. -/
def wUsersNoTok : List UserRec := [{ email := "v@example.com", tokens := none }]

/-- The empty cache. -/
def wCacheEmpty : CacheMap := fun _ => none

theorem ensureAuthenticated_ok (users : List UserRec) (email : String)
    (h : credentialed users email = true) :
    ensureAuthenticated users (some email) = Except.ok email := by
  unfold credentialed at h
  simp only [Bool.and_eq_true, Bool.not_eq_true'] at h
  obtain ⟨h1, h2⟩ := h
  cases hg : getUser users email with
  | none => rw [hg] at h2; simp at h2
  | some u =>
    rw [hg] at h2
    simp at h2
    obtain ⟨t, ht⟩ := Option.isSome_iff_exists.mp h2
    unfold ensureAuthenticated
    simp [truthy, h1, hg, ht]

theorem foldl_duration (l : List NormalizedEvent) :
    ∀ a : Int, l.foldl (fun sum x => sum + x.durationMinutes) a
      = a + (l.map (fun e => e.durationMinutes)).sum := by
  induction l with
  | nil => intro a; simp
  | cons e rest ih => intro a; simp [List.foldl_cons, ih, List.sum_cons]; ring

/-- C4: the summary has `totalEvents` equal to the list length, `totalHours`
equal to the unrounded sum of `durationMinutes` divided by 60,
`firstEventStart`/`lastEventEnd` taken from the first and last list elements
in provider order, and the empty list yields the all-zero/null summary. -/
theorem summary_correct (events : List NormalizedEvent) :
    (computeSummary events).totalEvents = events.length
    ∧ (computeSummary events).totalHours
        = (((events.map (fun e => e.durationMinutes)).sum : Int) : ℚ) / 60
    ∧ (computeSummary events).firstEventStart = events.head?.map (fun e => e.start)
    ∧ (computeSummary events).lastEventEnd = events.getLast?.map (fun e => e.end_)
    ∧ computeSummary []
        = { totalEvents := 0, totalHours := 0, firstEventStart := none, lastEventEnd := none } := by
  cases events with
  | nil => refine ⟨rfl, by simp [computeSummary], rfl, rfl, rfl⟩
  | cons e rest =>
    refine ⟨rfl, ?_, rfl, ?_, rfl⟩
    · simp [computeSummary, foldl_duration]
    · cases rest with
      | nil => simp [computeSummary]
      | cons b bs =>
        have hne : (b :: bs) ≠ ([] : List NormalizedEvent) := by simp
        obtain ⟨x, hx⟩ := Option.isSome_iff_exists.mp (List.getLast?_isSome.mpr hne)
        simp [computeSummary, List.getLast?_cons_cons, hx]

theorem keepEvent_iff (e : RawEvent) :
    keepEvent e = true
      ↔ ¬ e.status = some "cancelled" ∧ (startTime e).isSome ∧ (endTime e).isSome := by
  unfold keepEvent
  simp [Bool.and_eq_true, Bool.not_eq_true', beq_eq_false_iff_ne, and_assoc]

/-- C2: normalization keeps exactly the non-cancelled events with usable
start and end timestamps; a kept event's `durationMinutes` is the
JS-rounded difference of end and start in minutes, its timestamps are the
chosen ones, and the choice prefers the timed `dateTime` field over the
all-day `date` field. -/
theorem normalization_correct (raws : List RawEvent) :
    (∀ n, n ∈ processEvents raws
        ↔ ∃ e, e ∈ raws ∧ ¬ e.status = some "cancelled"
            ∧ (startTime e).isSome ∧ (endTime e).isSome ∧ n = normalizeEvent e)
    ∧ (∀ e s t, startTime e = some s → endTime e = some t →
        (normalizeEvent e).durationMinutes = jsRound (((t - s : Int) : ℚ) / 60000)
        ∧ (normalizeEvent e).start = s ∧ (normalizeEvent e).end_ = t)
    ∧ (∀ f v, f.dateTime = some v → timeVal f = some v)
    ∧ (∀ f, f.dateTime = none → timeVal f = f.date) := by
  refine ⟨?_, ?_, ?_, ?_⟩
  · intro n
    constructor
    · intro hn
      simp only [processEvents, List.mem_map] at hn
      obtain ⟨e, hmem, hn⟩ := hn
      rw [List.mem_filter] at hmem
      obtain ⟨he, hk⟩ := hmem
      obtain ⟨h1, h2, h3⟩ := (keepEvent_iff e).mp hk
      exact ⟨e, he, h1, h2, h3, hn.symm⟩
    · rintro ⟨e, he, h1, h2, h3, hn⟩
      simp only [processEvents, List.mem_map]
      exact ⟨e, List.mem_filter.mpr ⟨he, (keepEvent_iff e).mpr ⟨h1, h2, h3⟩⟩, hn.symm⟩
  · intro e s t hs ht
    refine ⟨?_, ?_, ?_⟩
    · simp only [normalizeEvent, hs, ht, Option.getD_some]
      norm_num
    · simp [normalizeEvent, hs, ht]
    · simp [normalizeEvent, hs, ht]
  · intro f v h
    simp [timeVal, h]
  · intro f h
    simp [timeVal, h]

/-- Concrete raw event: timed start at 0 ms, all-day end at 1 800 000 ms. -/
def wRaw : RawEvent :=
  { id := "e1", status := none, summary := some "Standup"
    start := some { dateTime := some 0, date := some 500 }
    end_ := some { dateTime := none, date := some 1800000 }
    location := none, attendees := none }

theorem normalization_correct_witness :
    (normalizeEvent wRaw ∈ processEvents [wRaw])
    ∧ (normalizeEvent wRaw).durationMinutes = 30 := by
  constructor
  · exact ((normalization_correct [wRaw]).1 (normalizeEvent wRaw)).mpr
      ⟨wRaw, by decide, by decide, by decide, by decide, rfl⟩
  · have h := ((normalization_correct [wRaw]).2.1 wRaw 0 1800000 (by decide) (by decide)).1
    rw [h]; norm_num [jsRound]

/-- C9: when the provider fetch fails, `/events` and `/events/summary`
leave the cache untouched, and respond 500 whenever the fetch was actually
performed (a cache hit or auth failure performs no fetch). -/
theorem fetch_error_preserves_cache (users : List UserRec) (cache : CacheMap)
    (header : Option String) (now : Int) (msg : String) :
    ((getEvents users cache header now (Except.error msg)).cache' = cache
      ∧ ((getEvents users cache header now (Except.error msg)).providerCalls = 1 →
          (getEvents users cache header now (Except.error msg)).status = 500))
    ∧ ((getSummary users cache header now (Except.error msg)).cache' = cache
      ∧ ((getSummary users cache header now (Except.error msg)).providerCalls = 1 →
          (getSummary users cache header now (Except.error msg)).status = 500)) := by
  unfold getEvents getSummary
  cases ensureAuthenticated users header with
  | error code => simp
  | ok email =>
    cases hE : cacheHitEvents (cache email) now <;>
      cases hS : cacheHitSummary (cache email) now <;> simp [hE, hS]

theorem fetch_error_preserves_cache_witness :
    (getEvents wUsers wCacheEmpty (some "u@example.com") 0 (Except.error "boom")).status = 500 :=
  (fetch_error_preserves_cache wUsers wCacheEmpty (some "u@example.com") 0 "boom").1.2 (by decide)

/-- C7: for each of the three read endpoints, a request without the
`X-User-Email` header gets 400, and a request naming a user with no stored
credentials gets 401. -/
theorem auth_errors (users : List UserRec) (cache : CacheMap) (now : Int)
    (provider : Except String (List RawEvent)) (eid : String) (email : String)
    (hne : ¬ email = "") (hcred : uncredentialed users email = true) :
    ((getEvents users cache none now provider).status = 400
      ∧ (getSummary users cache none now provider).status = 400
      ∧ (getEventById users cache none eid provider).status = 400)
    ∧ ((getEvents users cache (some email) now provider).status = 401
      ∧ (getSummary users cache (some email) now provider).status = 401
      ∧ (getEventById users cache (some email) eid provider).status = 401) := by
  have h400 : ensureAuthenticated users none = Except.error 400 := rfl
  have h401 : ensureAuthenticated users (some email) = Except.error 401 := by
    unfold uncredentialed at hcred
    cases hg : getUser users email with
    | none => unfold ensureAuthenticated; simp [truthy, hne, hg]
    | some u =>
      rw [hg] at hcred
      simp at hcred
      unfold ensureAuthenticated
      simp [truthy, hne, hg, hcred]
  simp [getEvents, getSummary, getEventById, h400, h401]

theorem cacheHitEvents_of_entry (entry : CacheEntry) (evs : List NormalizedEvent) (now : Int)
    (h1 : entry.events = some evs) (h2 : now < entry.expiry) :
    cacheHitEvents (some entry) now = some evs := by
  simp [cacheHitEvents, h1, h2]

theorem cacheHitEvents_expired (c : Option CacheEntry) (now : Int)
    (h : ∀ entry, c = some entry → entry.expiry ≤ now) :
    cacheHitEvents c now = none := by
  cases c with
  | none => rfl
  | some entry =>
    cases he : entry.events with
    | none => simp [cacheHitEvents, he]
    | some evs => simp [cacheHitEvents, he, not_lt.mpr (h entry rfl)]

theorem cacheHitSummary_of_entry (entry : CacheEntry) (s : Summary) (now : Int)
    (h1 : entry.summary = some s) (h2 : now < entry.expiry) :
    cacheHitSummary (some entry) now = some s := by
  simp [cacheHitSummary, h1, h2]

theorem getEvents_hit_eq (users : List UserRec) (cache : CacheMap) (email : String)
    (now : Int) (provider : Except String (List RawEvent)) (evs : List NormalizedEvent)
    (hok : ensureAuthenticated users (some email) = Except.ok email)
    (hhit : cacheHitEvents (cache email) now = some evs) :
    getEvents users cache (some email) now provider
      = { status := 200, body := some evs, cache' := cache, providerCalls := 0 } := by
  unfold getEvents
  simp only [hok, hhit]

theorem getEvents_miss_eq (users : List UserRec) (cache : CacheMap) (email : String)
    (now : Int) (raws : List RawEvent)
    (hok : ensureAuthenticated users (some email) = Except.ok email)
    (hmiss : cacheHitEvents (cache email) now = none) :
    getEvents users cache (some email) now (Except.ok raws)
      = { status := 200, body := some (processEvents raws)
          cache' := storeEvents cache email now (processEvents raws)
          providerCalls := 1 } := by
  unfold getEvents
  simp only [hok, hmiss]

theorem getEvents_miss_calls (users : List UserRec) (cache : CacheMap) (email : String)
    (now : Int) (provider : Except String (List RawEvent))
    (hok : ensureAuthenticated users (some email) = Except.ok email)
    (hmiss : cacheHitEvents (cache email) now = none) :
    (getEvents users cache (some email) now provider).providerCalls = 1 := by
  unfold getEvents
  simp only [hok, hmiss]
  cases provider <;> rfl

theorem getSummary_hit_eq (users : List UserRec) (cache : CacheMap) (email : String)
    (now : Int) (provider : Except String (List RawEvent)) (s : Summary)
    (hok : ensureAuthenticated users (some email) = Except.ok email)
    (hhit : cacheHitSummary (cache email) now = some s) :
    getSummary users cache (some email) now provider
      = { status := 200, body := some s, cache' := cache, providerCalls := 0 } := by
  unfold getSummary
  simp only [hok, hhit]

theorem getSummary_miss_eq (users : List UserRec) (cache : CacheMap) (email : String)
    (now : Int) (raws : List RawEvent)
    (hok : ensureAuthenticated users (some email) = Except.ok email)
    (hmiss : cacheHitSummary (cache email) now = none) :
    getSummary users cache (some email) now (Except.ok raws)
      = { status := 200, body := some (computeSummary (processEvents raws))
          cache' := storeSummary cache email now (computeSummary (processEvents raws))
          providerCalls := 1 } := by
  unfold getSummary
  simp only [hok, hmiss]

theorem getSummary_miss_calls (users : List UserRec) (cache : CacheMap) (email : String)
    (now : Int) (provider : Except String (List RawEvent))
    (hok : ensureAuthenticated users (some email) = Except.ok email)
    (hmiss : cacheHitSummary (cache email) now = none) :
    (getSummary users cache (some email) now provider).providerCalls = 1 := by
  unfold getSummary
  simp only [hok, hmiss]
  cases provider <;> rfl

theorem updateCache_self (cache : CacheMap) (email : String) (entry : CacheEntry) :
    (updateCache cache email entry) email = some entry := by
  simp [updateCache]

theorem updateCache_other (cache : CacheMap) (email e : String) (entry : CacheEntry)
    (h : ¬ e = email) : (updateCache cache email entry) e = cache e := by
  simp [updateCache, h]

theorem auth_errors_witness :
    ((getEvents wUsersNoTok wCacheEmpty none 0 (Except.ok [])).status = 400
      ∧ (getSummary wUsersNoTok wCacheEmpty none 0 (Except.ok [])).status = 400
      ∧ (getEventById wUsersNoTok wCacheEmpty none "x" (Except.ok [])).status = 400)
    ∧ ((getEvents wUsersNoTok wCacheEmpty (some "v@example.com") 0 (Except.ok [])).status = 401
      ∧ (getSummary wUsersNoTok wCacheEmpty (some "v@example.com") 0 (Except.ok [])).status = 401
      ∧ (getEventById wUsersNoTok wCacheEmpty (some "v@example.com") "x" (Except.ok [])).status = 401) :=
  auth_errors wUsersNoTok wCacheEmpty 0 (Except.ok []) "x" "v@example.com" (by decide) (by decide)

/-- C6: `invalidateCache` clears both sub-fields and resets the entry's
expiry to 0, so an immediately following read of either cached endpoint
always performs a provider call. -/
theorem invalidate_forces_fetch (users : List UserRec) (cache : CacheMap) (email : String)
    (now : Int) (provider : Except String (List RawEvent))
    (hc : credentialed users email = true) :
    (invalidateCache cache email) email
        = some { events := none, summary := none, expiry := 0 }
    ∧ (getEvents users (invalidateCache cache email) (some email) now provider).providerCalls = 1
    ∧ (getSummary users (invalidateCache cache email) (some email) now provider).providerCalls = 1 := by
  have hok := ensureAuthenticated_ok users email hc
  have hinv : (invalidateCache cache email) email
      = some { events := none, summary := none, expiry := 0 } :=
    updateCache_self cache email _
  refine ⟨hinv, ?_, ?_⟩
  · refine getEvents_miss_calls users _ email now provider hok ?_
    rw [hinv]
    rfl
  · refine getSummary_miss_calls users _ email now provider hok ?_
    rw [hinv]
    rfl

theorem invalidate_forces_fetch_witness :
    (getEvents wUsers (invalidateCache wCacheEmpty "u@example.com") (some "u@example.com") 0
        (Except.ok [])).providerCalls = 1 :=
  (invalidate_forces_fetch wUsers wCacheEmpty "u@example.com" 0 (Except.ok [])
    (by decide)).2.1

/-- C5: `/events/:id` never reads or writes the cache (its response does not
depend on the cache state and the cache is returned unchanged), performs a
provider fetch of the full list on every authenticated request, linearly
scans it for the identifier, answers 200 with the event when found and 404
when absent. -/
theorem single_event_lookup (users : List UserRec) (cache cache₂ : CacheMap)
    (email eid : String) (raws : List RawEvent)
    (provider : Except String (List RawEvent))
    (hc : credentialed users email = true) :
    (getEventById users cache (some email) eid provider).cache' = cache
    ∧ (getEventById users cache (some email) eid provider).status
        = (getEventById users cache₂ (some email) eid provider).status
    ∧ (getEventById users cache (some email) eid provider).body
        = (getEventById users cache₂ (some email) eid provider).body
    ∧ (getEventById users cache (some email) eid provider).providerCalls = 1
    ∧ ((processEvents raws).find? (fun e => e.id == eid) = none →
        (getEventById users cache (some email) eid (Except.ok raws)).status = 404
        ∧ (getEventById users cache (some email) eid (Except.ok raws)).body = none)
    ∧ (∀ ev, (processEvents raws).find? (fun e => e.id == eid) = some ev →
        (getEventById users cache (some email) eid (Except.ok raws)).status = 200
        ∧ (getEventById users cache (some email) eid (Except.ok raws)).body = some ev) := by
  have hok := ensureAuthenticated_ok users email hc
  refine ⟨?_, ?_, ?_, ?_, ?_, ?_⟩
  · unfold getEventById
    simp only [hok]
    cases provider with
    | error msg => rfl
    | ok rs => cases hf : (processEvents rs).find? (fun e => e.id == eid) <;> simp [hf]
  · unfold getEventById
    simp only [hok]
    cases provider with
    | error msg => rfl
    | ok rs => cases hf : (processEvents rs).find? (fun e => e.id == eid) <;> simp [hf]
  · unfold getEventById
    simp only [hok]
    cases provider with
    | error msg => rfl
    | ok rs => cases hf : (processEvents rs).find? (fun e => e.id == eid) <;> simp [hf]
  · unfold getEventById
    simp only [hok]
    cases provider with
    | error msg => rfl
    | ok rs => cases hf : (processEvents rs).find? (fun e => e.id == eid) <;> simp [hf]
  · intro hf
    unfold getEventById
    simp only [hok]
    simp [hf]
  · intro ev hf
    unfold getEventById
    simp only [hok]
    simp [hf]

theorem single_event_lookup_witness :
    (getEventById wUsers wCacheEmpty (some "u@example.com") "nope" (Except.ok [])).status = 404 :=
  ((single_event_lookup wUsers wCacheEmpty wCacheEmpty "u@example.com" "nope" []
      (Except.ok []) (by decide)).2.2.2.2.1 (by decide)).1

/-- C1 counterexample: a credentialed user makes two identical, back-to-back
successful `GET /events/:id` requests (the first leaves the cache exactly as
it was, so the second runs in the very state the first produced, inside any
TTL window); each of the two calls performs a provider call, refuting the
claim that for every one of the three read endpoints the second call within
the TTL window happens without a provider call. -/
theorem events_id_cache_counterexample :
    (getEventById wUsers wCacheEmpty (some "u@example.com") "e1" (Except.ok [wRaw])).status = 200
    ∧ (getEventById wUsers wCacheEmpty (some "u@example.com") "e1"
        (Except.ok [wRaw])).providerCalls = 1
    ∧ (getEventById wUsers
        ((getEventById wUsers wCacheEmpty (some "u@example.com") "e1"
          (Except.ok [wRaw])).cache')
        (some "u@example.com") "e1" (Except.ok [wRaw])).providerCalls = 1 :=
  ⟨rfl, rfl, rfl⟩

/-- C1 (amended): for `/events` and `/events/summary`, after a populating
fetch at time `now`, a second call to the same endpoint before
`now + CACHE_TTL_MS` returns the identical cached payload with no provider
call, and a call at or after expiry performs exactly one new provider call;
`/events/:id`, by contrast, performs one provider call on every
authenticated request. -/
theorem cache_ttl_invariant (users : List UserRec) (cache : CacheMap) (email : String)
    (now now' : Int) (raws : List RawEvent) (provider' : Except String (List RawEvent))
    (eid : String)
    (hc : credentialed users email = true)
    (r1e : EventsOut) (h1e : r1e = getEvents users cache (some email) now (Except.ok raws))
    (r1s : SummaryOut) (h1s : r1s = getSummary users cache (some email) now (Except.ok raws)) :
    (r1e.providerCalls = 1 →
      (now' < now + CACHE_TTL_MS →
        getEvents users r1e.cache' (some email) now' provider'
          = { status := 200, body := r1e.body, cache' := r1e.cache', providerCalls := 0 })
      ∧ (now + CACHE_TTL_MS ≤ now' →
        (getEvents users r1e.cache' (some email) now' provider').providerCalls = 1))
    ∧ (r1s.providerCalls = 1 →
      (now' < now + CACHE_TTL_MS →
        getSummary users r1s.cache' (some email) now' provider'
          = { status := 200, body := r1s.body, cache' := r1s.cache', providerCalls := 0 })
      ∧ (now + CACHE_TTL_MS ≤ now' →
        (getSummary users r1s.cache' (some email) now' provider').providerCalls = 1))
    ∧ (getEventById users cache (some email) eid provider').providerCalls = 1 := by
  have hok := ensureAuthenticated_ok users email hc
  refine ⟨?_, ?_, ?_⟩
  · intro hp
    subst h1e
    cases hE : cacheHitEvents (cache email) now with
    | some evs =>
      rw [getEvents_hit_eq users cache email now (Except.ok raws) evs hok hE] at hp
      simp at hp
    | none =>
      rw [getEvents_miss_eq users cache email now raws hok hE]
      simp only
      have hupd : (storeEvents cache email now (processEvents raws)) email
          = some { baseEntry (cache email) with
                   events := some (processEvents raws), expiry := now + CACHE_TTL_MS } :=
        updateCache_self cache email _
      constructor
      · intro hlt
        exact getEvents_hit_eq users _ email now' provider' (processEvents raws) hok
          (by rw [hupd]; exact cacheHitEvents_of_entry _ _ now' rfl hlt)
      · intro hge
        refine getEvents_miss_calls users _ email now' provider' hok ?_
        rw [hupd]
        refine cacheHitEvents_expired _ now' ?_
        intro entry hent
        injection hent with h
        rw [← h]
        exact hge
  · intro hp
    subst h1s
    cases hS : cacheHitSummary (cache email) now with
    | some s =>
      rw [getSummary_hit_eq users cache email now (Except.ok raws) s hok hS] at hp
      simp at hp
    | none =>
      rw [getSummary_miss_eq users cache email now raws hok hS]
      simp only
      have hupd : (storeSummary cache email now (computeSummary (processEvents raws))) email
          = some { baseEntry (cache email) with
                   summary := some (computeSummary (processEvents raws))
                   expiry := now + CACHE_TTL_MS } :=
        updateCache_self cache email _
      constructor
      · intro hlt
        exact getSummary_hit_eq users _ email now' provider'
          (computeSummary (processEvents raws)) hok
          (by rw [hupd]; exact cacheHitSummary_of_entry _ _ now' rfl hlt)
      · intro hge
        refine getSummary_miss_calls users _ email now' provider' hok ?_
        rw [hupd]
        unfold cacheHitSummary
        simp [not_lt.mpr hge]
  · unfold getEventById
    simp only [hok]
    cases provider' with
    | error msg => rfl
    | ok rs => cases hf : (processEvents rs).find? (fun e => e.id == eid) <;> simp [hf]

theorem cache_ttl_invariant_witness :
    getEvents wUsers
        ((getEvents wUsers wCacheEmpty (some "u@example.com") 0 (Except.ok [])).cache')
        (some "u@example.com") 30000 (Except.error "down")
      = { status := 200
          body := (getEvents wUsers wCacheEmpty (some "u@example.com") 0 (Except.ok [])).body
          cache' := (getEvents wUsers wCacheEmpty (some "u@example.com") 0 (Except.ok [])).cache'
          providerCalls := 0 } :=
  ((cache_ttl_invariant wUsers wCacheEmpty "u@example.com" 0 30000 [] (Except.error "down") "e1"
      (by decide) _ rfl _ rfl).1 (by decide)).1 (by decide)

/-- C8: a successful `/events/summary` cache miss rewrites only the user's
`summary` sub-field and the shared expiry (other users' entries are
untouched), preserving the `events` sub-field; hence with a previously
cached (possibly expired) events list, a `/events` call within
`CACHE_TTL_MS` of that summary request returns the old list with no
provider call. -/
theorem summary_miss_frame (users : List UserRec) (cache : CacheMap) (email : String)
    (now now' : Int) (raws : List RawEvent) (provider' : Except String (List RawEvent))
    (entry : CacheEntry) (evs : List NormalizedEvent)
    (hc : credentialed users email = true)
    (hentry : cache email = some entry) (hevs : entry.events = some evs)
    (r1 : SummaryOut) (h1 : r1 = getSummary users cache (some email) now (Except.ok raws))
    (hp : r1.providerCalls = 1) :
    r1.cache' email
      = some { events := some evs
               summary := some (computeSummary (processEvents raws))
               expiry := now + CACHE_TTL_MS }
    ∧ (∀ e, ¬ e = email → r1.cache' e = cache e)
    ∧ (now' < now + CACHE_TTL_MS →
        getEvents users r1.cache' (some email) now' provider'
          = { status := 200, body := some evs, cache' := r1.cache', providerCalls := 0 }) := by
  have hok := ensureAuthenticated_ok users email hc
  have hbase : baseEntry (cache email) = entry := by rw [hentry]; rfl
  subst h1
  cases hS : cacheHitSummary (cache email) now with
  | some s =>
    rw [getSummary_hit_eq users cache email now (Except.ok raws) s hok hS] at hp
    simp at hp
  | none =>
    rw [getSummary_miss_eq users cache email now raws hok hS]
    simp only
    refine ⟨?_, ?_, ?_⟩
    · rw [show (storeSummary cache email now (computeSummary (processEvents raws))) email
          = some { baseEntry (cache email) with
                   summary := some (computeSummary (processEvents raws))
                   expiry := now + CACHE_TTL_MS } from updateCache_self cache email _]
      rw [hbase]
      simp [hevs]
    · intro e hne
      exact updateCache_other cache email e _ hne
    · intro hlt
      refine getEvents_hit_eq users _ email now' provider' evs hok ?_
      rw [show (storeSummary cache email now (computeSummary (processEvents raws))) email
          = some { baseEntry (cache email) with
                   summary := some (computeSummary (processEvents raws))
                   expiry := now + CACHE_TTL_MS } from updateCache_self cache email _]
      refine cacheHitEvents_of_entry _ evs now' ?_ hlt
      rw [hbase]
      simp [hevs]

/-- Concrete cache holding a stale events list for the witness user. -/
def wEvsOld : List NormalizedEvent :=
  [{ id := "old", title := "Old", start := 0, end_ := 0, durationMinutes := 0
     location := "", attendees := [] }]

/-- A cache entry whose events list is already expired. -/
def wCacheStale : CacheMap :=
  fun e => if e = "u@example.com"
    then some { events := some wEvsOld, summary := none, expiry := -5 }
    else none

theorem summary_miss_frame_witness :
    getEvents wUsers
        ((getSummary wUsers wCacheStale (some "u@example.com") 0 (Except.ok [])).cache')
        (some "u@example.com") 30000 (Except.error "down")
      = { status := 200
          body := some wEvsOld
          cache' := (getSummary wUsers wCacheStale (some "u@example.com") 0 (Except.ok [])).cache'
          providerCalls := 0 } :=
  (summary_miss_frame wUsers wCacheStale "u@example.com" 0 30000 [] (Except.error "down")
      { events := some wEvsOld, summary := none, expiry := -5 } wEvsOld
      (by decide) (by decide) (by decide) _ rfl (by decide)).2.2 (by decide)

theorem truthy_none : truthy none = false := rfl

theorem oauth2callback_attempted (users : List UserRec) (cache : CacheMap)
    (code : Option String) (tokens : Tokens) (o : ResolveOracle)
    (hcode : truthy code = true) :
    (oauth2callback users cache code (Except.ok tokens) o).attempted
      = (resolveEmail tokens o).2 := by
  unfold oauth2callback
  rw [hcode]
  by_cases h : truthy (resolveEmail tokens o).1 = true <;> simp [h]

/-- C3: under a present code and successful token exchange, the email is
resolved by the ordered three-step chain — the ID-token method runs iff an
`id_token` is present; the user-info method runs iff an `access_token` is
present and the earlier step yielded no (truthy) email; the token-info
method runs iff an `access_token` is present and both earlier steps yielded
none; the attempts happen in chain order — and when no method yields an
email the callback responds 400 and neither the user store nor the cache is
touched. -/
theorem oauth_fallback_chain (users : List UserRec) (cache : CacheMap)
    (code : Option String) (tokens : Tokens) (o : ResolveOracle)
    (hcode : truthy code = true) :
    (ResolveMethod.idToken ∈ (oauth2callback users cache code (Except.ok tokens) o).attempted
        ↔ truthy tokens.id_token = true)
    ∧ (ResolveMethod.userinfo ∈ (oauth2callback users cache code (Except.ok tokens) o).attempted
        ↔ truthy tokens.access_token = true
          ∧ truthy (if truthy tokens.id_token then o.verifyIdToken else none) = false)
    ∧ (ResolveMethod.tokenInfo ∈ (oauth2callback users cache code (Except.ok tokens) o).attempted
        ↔ truthy tokens.access_token = true
          ∧ truthy (if truthy tokens.id_token then o.verifyIdToken else none) = false
          ∧ truthy o.userinfo = false)
    ∧ (oauth2callback users cache code (Except.ok tokens) o).attempted.Sublist
        [ResolveMethod.idToken, ResolveMethod.userinfo, ResolveMethod.tokenInfo]
    ∧ (truthy (resolveEmail tokens o).1 = false →
        (oauth2callback users cache code (Except.ok tokens) o).status = 400
        ∧ (oauth2callback users cache code (Except.ok tokens) o).users' = users
        ∧ (oauth2callback users cache code (Except.ok tokens) o).cache' = cache) := by
  rw [oauth2callback_attempted users cache code tokens o hcode]
  refine ⟨?_, ?_, ?_, ?_, ?_⟩
  · unfold resolveEmail
    by_cases h1 : truthy tokens.id_token = true <;>
    by_cases h2 : truthy tokens.access_token = true <;>
    by_cases h3 : truthy o.verifyIdToken = true <;>
    by_cases h4 : truthy o.userinfo = true <;>
      simp [h1, h2, h3, h4, truthy_none]
  · unfold resolveEmail
    by_cases h1 : truthy tokens.id_token = true <;>
    by_cases h2 : truthy tokens.access_token = true <;>
    by_cases h3 : truthy o.verifyIdToken = true <;>
    by_cases h4 : truthy o.userinfo = true <;>
      simp [h1, h2, h3, h4, truthy_none]
  · unfold resolveEmail
    by_cases h1 : truthy tokens.id_token = true <;>
    by_cases h2 : truthy tokens.access_token = true <;>
    by_cases h3 : truthy o.verifyIdToken = true <;>
    by_cases h4 : truthy o.userinfo = true <;>
      simp [h1, h2, h3, h4, truthy_none]
  · unfold resolveEmail
    by_cases h1 : truthy tokens.id_token = true <;>
    by_cases h2 : truthy tokens.access_token = true <;>
    by_cases h3 : truthy o.verifyIdToken = true <;>
    by_cases h4 : truthy o.userinfo = true <;>
      simp [h1, h2, h3, h4, truthy_none]
  · intro h
    unfold oauth2callback
    rw [hcode]
    simp [h]

/-- Oracle on which every resolution method fails. -/
def wOracleFail : ResolveOracle :=
  { verifyIdToken := none, userinfo := none, tokenInfo := none }

theorem oauth_fallback_chain_witness :
    (oauth2callback wUsersNoTok wCacheEmpty (some "authcode") (Except.ok wTokens)
        wOracleFail).status = 400
    ∧ (oauth2callback wUsersNoTok wCacheEmpty (some "authcode") (Except.ok wTokens)
        wOracleFail).users' = wUsersNoTok :=
  have h := (oauth_fallback_chain wUsersNoTok wCacheEmpty (some "authcode") wTokens
    wOracleFail (by decide)).2.2.2.2 (by decide)
  ⟨h.1, h.2.1⟩

theorem saveUser_absent (users : List UserRec) (email : String) (tokens : Tokens)
    (h : getUser users email = none) :
    saveUser users email tokens = users ++ [{ email := email, tokens := some tokens }] := by
  induction users with
  | nil => rfl
  | cons u rest ih =>
    unfold getUser at h ih
    rw [List.find?_cons] at h
    cases hu : u.email == email with
    | true => rw [hu] at h; simp at h
    | false =>
      rw [hu] at h
      simp only [Bool.false_eq_true, if_false] at h
      simp [saveUser, hu, ih h]

theorem saveUser_present_emails (users : List UserRec) (email : String) (tokens : Tokens)
    (h : ¬ getUser users email = none) :
    (saveUser users email tokens).map (fun u => u.email) = users.map (fun u => u.email) := by
  induction users with
  | nil => exact absurd rfl h
  | cons u rest ih =>
    cases hu : u.email == email with
    | true => simp [saveUser, hu]
    | false =>
      unfold getUser at h ih
      rw [List.find?_cons, hu] at h
      simp only [Bool.false_eq_true, if_false] at h
      simp [saveUser, hu, ih h]

theorem saveUser_frame (users : List UserRec) (email : String) (tokens : Tokens) :
    (saveUser users email tokens).filter (fun u => !(u.email == email))
      = users.filter (fun u => !(u.email == email)) := by
  induction users with
  | nil => simp [saveUser]
  | cons u rest ih =>
    cases hu : u.email == email with
    | true => simp [saveUser, hu, List.filter_cons]
    | false => simp [saveUser, hu, List.filter_cons, ih]

theorem getUser_saveUser_self (users : List UserRec) (email : String) (tokens : Tokens) :
    getUser (saveUser users email tokens) email
      = some { email := email, tokens := some tokens } := by
  induction users with
  | nil => simp [saveUser, getUser]
  | cons u rest ih =>
    cases hu : u.email == email with
    | true =>
      have he : u.email = email := by simpa using hu
      simp [saveUser, getUser, hu, List.find?_cons, he]
    | false =>
      unfold getUser at ih
      simp [saveUser, getUser, hu, List.find?_cons, ih]

theorem getUser_saveUser_other (users : List UserRec) (email : String) (tokens : Tokens)
    (e : String) (hne : ¬ e = email) :
    getUser (saveUser users email tokens) e = getUser users e := by
  have hee : (email == e) = false := beq_eq_false_iff_ne.mpr (Ne.symm hne)
  induction users with
  | nil => simp [saveUser, getUser, hee]
  | cons u rest ih =>
    cases hu : u.email == email with
    | true =>
      cases hue : u.email == e with
      | true =>
        exfalso
        apply hne
        have h1 : u.email = email := by simpa using hu
        have h2 : u.email = e := by simpa using hue
        rw [← h2, h1]
      | false => simp [saveUser, getUser, hu, hue, List.find?_cons]
    | false =>
      unfold getUser at ih
      cases hue : u.email == e with
      | true => simp [saveUser, getUser, hu, hue, List.find?_cons]
      | false => simp [saveUser, getUser, hu, hue, List.find?_cons, ih]

theorem saveUser_nodup (users : List UserRec) (email : String) (tokens : Tokens)
    (h : (users.map (fun u => u.email)).Nodup) :
    ((saveUser users email tokens).map (fun u => u.email)).Nodup := by
  cases hg : getUser users email with
  | none =>
    rw [saveUser_absent users email tokens hg, List.map_append]
    have hmem : ¬ email ∈ users.map (fun u => u.email) := by
      intro hmem
      rw [List.mem_map] at hmem
      obtain ⟨u, hu, hue⟩ := hmem
      unfold getUser at hg
      have hfind := List.find?_eq_none.mp hg u hu
      simp [hue] at hfind
    simp [List.nodup_append, h, hmem]
  | some u =>
    rw [saveUser_present_emails users email tokens (by rw [hg]; simp)]
    exact h

/-- C10: under the at-most-once-per-email store invariant, `saveUser` is an
upsert that preserves the invariant and touches no other record: the
sub-list of records for other emails is unchanged (same records, same
order), other lookups are unaffected; when the email is absent exactly one
new record is appended at the end, when present the record's tokens are
replaced in place (the email sequence of the store is unchanged), and
afterwards the lookup for that email yields the new tokens. -/
theorem saveUser_upsert (users : List UserRec) (email : String) (tokens : Tokens)
    (hnd : (users.map (fun u => u.email)).Nodup) :
    ((saveUser users email tokens).map (fun u => u.email)).Nodup
    ∧ (saveUser users email tokens).filter (fun u => !(u.email == email))
        = users.filter (fun u => !(u.email == email))
    ∧ (getUser users email = none →
        saveUser users email tokens = users ++ [{ email := email, tokens := some tokens }])
    ∧ (¬ getUser users email = none →
        (saveUser users email tokens).map (fun u => u.email) = users.map (fun u => u.email))
    ∧ getUser (saveUser users email tokens) email = some { email := email, tokens := some tokens }
    ∧ (∀ e, ¬ e = email → getUser (saveUser users email tokens) e = getUser users e) :=
  ⟨saveUser_nodup users email tokens hnd, saveUser_frame users email tokens,
    fun h => saveUser_absent users email tokens h,
    fun h => saveUser_present_emails users email tokens h,
    getUser_saveUser_self users email tokens,
    fun e hne => getUser_saveUser_other users email tokens e hne⟩

/-- Fresh token bundle for the upsert witness. -/
def wTokens2 : Tokens := { id_token := none, access_token := some "acc2" }

theorem saveUser_upsert_witness :
    getUser (saveUser wUsers "u@example.com" wTokens2) "u@example.com"
      = some { email := "u@example.com", tokens := some wTokens2 } :=
  (saveUser_upsert wUsers "u@example.com" wTokens2 (by decide)).2.2.2.2.1
